import Mathlib

/-! notion-chat-agent: a shallow embedding of `main.go`.

The program performs one HTTP GET against the Notion blocks endpoint, flattens the
dynamically typed JSON tree it receives into lines of text, performs one HTTP POST
against a chat-completion endpoint and prints the first answer.

What the Go standard library hands back to the program (the outcome of `client.Do`,
the value `json.Unmarshal` leaves in `result`, the error it reports) is input data of
the model.  Everything `main.go` itself computes is a Lean function below.
-/

namespace NotionChat

/-! ## Dynamic values stored in `interface{}` by `encoding/json` -/

/-- The dynamic values `encoding/json` stores in an `interface{}`: `nil`, `bool`,
`float64` (kept as its bit pattern, never inspected by the program), `string`,
`[]interface{}` and `map[string]interface{}` (an association list, first binding of a
key is the one the map holds). -/
inductive GoValue where
  | nil : GoValue
  | bool (b : Bool) : GoValue
  | float64 (bits : Nat) : GoValue
  | string (s : String) : GoValue
  | slice (xs : List GoValue) : GoValue
  | map (m : List (String × GoValue)) : GoValue

/-- A value of Go type `map[string]interface{}`; the nil map and the empty map are both
`[]` (indexing either yields the nil interface). -/
abbrev GoMap := List (String × GoValue)

/-- Go map indexing `m[k]`: the stored value, or the nil interface when `k` is absent. -/
def mapIndex (m : GoMap) (k : String) : GoValue :=
  match m.find? (fun kv => kv.1 == k) with
  | some kv => kv.2
  | none => GoValue.nil

/-- The checked type assertion `v.(string)`. -/
def asString : GoValue → Option String
  | GoValue.string s => some s
  | _ => none

/-- The checked type assertion `v.(map[string]interface{})`. -/
def asMap : GoValue → Option GoMap
  | GoValue.map m => some m
  | _ => none

/-- The checked type assertion `v.([]interface{})`. -/
def asSlice : GoValue → Option (List GoValue)
  | GoValue.slice xs => some xs
  | _ => none

/-! ## `strings.Join` -/

/-- Go `strings.Join(elems, sep)`: empty for no elements, the element itself for one,
otherwise the first element followed by `sep` and the next element, repeatedly. -/
def stringsJoin (elems : List String) (sep : String) : String :=
  match elems with
  | [] => ""
  | [a] => a
  | a :: rest => rest.foldl (fun b s => b ++ sep ++ s) a

/-! ## `fetchNotionContent` -/

/-- The innermost loop of `fetchNotionContent` (lines 59-65): one pass over `rtArr`,
appending `plain` to `lines` for each element that is a map with a string
`plain_text`. -/
def appendSpans (lines : List String) (rtArr : List GoValue) : List String :=
  rtArr.foldl
    (fun lines rtRaw =>
      match asMap rtRaw with
      | some rt =>
        match asString (mapIndex rt "plain_text") with
        | some plain => lines ++ [plain]
        | none => lines
      | none => lines)
    lines

/-- One iteration of the outer loop of `fetchNotionContent` (lines 49-68). -/
def blockStep (lines : List String) (blk : GoMap) : List String :=
  match asString (mapIndex blk "type") with
  | none => lines
  | some blkType =>
    match asMap (mapIndex blk blkType) with
    | some blkObj =>
      match asSlice (mapIndex blkObj "rich_text") with
      | some rtArr => appendSpans lines rtArr
      | none => lines
    | none => lines

/-- The loop of lines 48-68: `lines` starts as the nil slice and every block of
`result.Results` is visited in order. -/
def extractLines (results : List GoMap) : List String :=
  results.foldl blockStep []

/-- What the standard library returns to `fetchNotionContent` once `client.Do` has
succeeded: the status code of the response (never read by the program), the value
`json.Unmarshal(body, &result)` leaves in `result.Results`, and the error
`json.Unmarshal` returns (discarded at line 45). -/
structure NotionReply where
  StatusCode : Nat
  Results : List GoMap
  unmarshalErr : Option String

/-- The outcome of lines 28-34 for a page identifier and a token: `http.NewRequest`
rejects the URL (its error is discarded at line 29, so `req` is nil), or `client.Do`
returns a non-nil error with the given message, or it returns a response. -/
inductive DoOutcome where
  | noRequest : DoOutcome
  | failed (err : String) : DoOutcome
  | replied (resp : NotionReply) : DoOutcome

/-- `fetchNotionContent`, lines 26-70. `Do pageID token` is the outcome of lines 28-34
for the request built from `pageID` and `token`. The result is `none` when the call
does not return (line 30 dereferences the nil `req` and the run panics), and otherwise
Go's `(string, error)` pair, the error being `none` for `nil`. -/
def fetchNotionContent (Do : String → String → DoOutcome)
    (pageID token : String) : Option (String × Option String) :=
  match Do pageID token with
  | DoOutcome.noRequest => none
  | DoOutcome.failed err => some ("", some err)
  | DoOutcome.replied resp => some (stringsJoin (extractLines resp.Results) "\n", none)

/-! ## `fmt.Sprintf`, `strings.TrimSpace`, `len` -/

/-- The text `fmt` appends for operands no verb consumed:
`%!(EXTRA string=a, string=b)`. -/
def extraOperands (args : List String) : List Char :=
  "%!(EXTRA ".data ++ (stringsJoin (args.map (fun a => "string=" ++ a)) ", ").data ++ ")".data

/-- Go `fmt.Sprintf` on a format (as runes) and string operands, for formats whose only
verbs are `%s` and `%%`: `%s` prints the next operand verbatim (`%!s(MISSING)` when
there is none), `%%` prints a percent sign, every other rune is copied, and operands
left over are reported at the end. A format with any other verb or flag is outside the
model (`none`). -/
def sprintfRunes : List Char → List String → Option (List Char)
  | [], [] => some []
  | [], a :: args => some (extraOperands (a :: args))
  | '%' :: 's' :: rest, [] => ("%!s(MISSING)".data ++ ·) <$> sprintfRunes rest []
  | '%' :: 's' :: rest, a :: args => (a.data ++ ·) <$> sprintfRunes rest args
  | '%' :: '%' :: rest, args => ('%' :: ·) <$> sprintfRunes rest args
  | '%' :: _, _ => none
  | c :: rest, args => (c :: ·) <$> sprintfRunes rest args

/-- Go `fmt.Sprintf(format, args...)` for string operands; see `sprintfRunes`. -/
def sprintf (format : String) (args : List String) : Option String :=
  String.mk <$> sprintfRunes format.data args

/-- Go `unicode.IsSpace`: in Latin-1 the runes tab, LF, VT, FF, CR, space, U+0085 and
U+00A0; beyond Latin-1 the runes of the `White_Space` table. -/
def unicodeIsSpace (r : Char) : Bool :=
  let n := r.toNat
  if n ≤ 0xFF then
    n == 0x09 || n == 0x0A || n == 0x0B || n == 0x0C || n == 0x0D || n == 0x20 ||
      n == 0x85 || n == 0xA0
  else
    n == 0x1680 || (0x2000 ≤ n && n ≤ 0x200A) || n == 0x2028 || n == 0x2029 ||
      n == 0x202F || n == 0x205F || n == 0x3000

/-- Go `strings.TrimSpace` on valid UTF-8 text (what `encoding/json` stores in a
string field): all leading and all trailing runes satisfying `unicode.IsSpace` are
removed. -/
def stringsTrimSpace (s : String) : String :=
  String.mk ((s.data.dropWhile unicodeIsSpace).rdropWhile unicodeIsSpace)

/-- Go `len(s)` for a string: its length in bytes. -/
def goLen (s : String) : Nat := s.utf8ByteSize

/-! ## `askOpenAI` -/

/-- The format string of lines 77-86 (a raw string literal, so it starts and ends with
a line break). -/
def promptFormat : String :=
  "\nYou are a helpful assistant. Answer the user\x27s question based on the following Notion content.\n\n--- Notion Content ---\n%s\n-----------------------\n\nQuestion: %s\nAnswer:\n"

/-- The prompt of lines 77-86: `fmt.Sprintf(promptFormat, context, question)`. The
format has only `%s` verbs, so `sprintf` is defined on it and the default is never
taken. -/
def composePrompt (question context : String) : String :=
  (sprintf promptFormat [context, question]).getD ""

/-- The field `Message` of a decoded choice. -/
structure Message where
  Content : String
  deriving DecidableEq

/-- One element of `result.Choices`. -/
structure Choice where
  Message : Message
  deriving DecidableEq

/-- What the standard library returns to `askOpenAI` once `http.DefaultClient.Do` has
succeeded: the status code (never read), the value `json.Unmarshal(body, &result)`
leaves in `result.Choices`, and the error it returns (discarded at line 118). -/
structure OpenAIReply where
  StatusCode : Nat
  Choices : List Choice
  unmarshalErr : Option String

/-- Lines 120-123 of `askOpenAI`: the first choice trimmed, or the error
`no response from OpenAI`. -/
def firstAnswer (choices : List Choice) : String × Option String :=
  if h : choices.length > 0 then
    (stringsTrimSpace (choices[0]).Message.Content, none)
  else
    ("", some "no response from OpenAI")

/-- `askOpenAI`, lines 75-124. `Do prompt apiKey` is the outcome of
`http.DefaultClient.Do(req)` for the request carrying `prompt` and `apiKey`. -/
def askOpenAI (Do : String → String → Except String OpenAIReply)
    (question context apiKey : String) : String × Option String :=
  match Do (composePrompt question context) apiKey with
  | Except.error err => ("", some err)
  | Except.ok resp => firstAnswer resp.Choices

/-! ## `main` -/

/-- The observable actions of a run, in program order: a panic, a line written by
`fmt.Println` (without its final line break), a text written by `fmt.Print`, the
request sent to the source service, the read of one line from standard input, and the
request sent to the inference service. -/
inductive Event where
  | panic (msg : String)
  | println (s : String)
  | print (s : String)
  | notionGet (pageID token : String)
  | readStdin
  | openaiPost (prompt apiKey : String)
  deriving DecidableEq

/-- Everything outside the program that a run depends on: the error of
`godotenv.Load` (if any), the process environment, the source service, the line
`reader.ReadString` returns, and the inference service. -/
structure World where
  dotenvErr : Option String
  getenv : String → String
  notionDo : String → String → DoOutcome
  stdinLine : String
  openaiDo : String → String → Except String OpenAIReply

/-- The trace of `main` up to and including the request `fetchNotionContent` sends. -/
def fetchTrace (w : World) : List Event :=
  [Event.println "📄 Fetching Notion content...",
   Event.notionGet (w.getenv "NOTION_PAGE_ID") (w.getenv "NOTION_API_KEY")]

/-- Lines 146-159 of `main`: the question is read and trimmed, `askOpenAI` is called and
its outcome printed. -/
def askTrace (w : World) (context : String) : List Event :=
  let openaiKey := w.getenv "OPENAI_API_KEY"
  let question := stringsTrimSpace w.stdinLine
  let pre := [Event.println "✅ Content fetched.",
    Event.print "\n❓ Enter your question: ", Event.readStdin]
  let post := Event.openaiPost (composePrompt question context) openaiKey
  match askOpenAI w.openaiDo question context openaiKey with
  | (_, some err) => pre ++ [post, Event.println ("❌ Error: " ++ err)]
  | (answer, none) => pre ++ [post, Event.println ("\n🤖 Answer:\n" ++ answer)]

/-- `main`, lines 126-160, as the list of actions the run performs. -/
def main (w : World) : List Event :=
  match w.dotenvErr with
  | some _ => [Event.panic "Error loading .env file"]
  | none =>
    match fetchNotionContent w.notionDo (w.getenv "NOTION_PAGE_ID") (w.getenv "NOTION_API_KEY") with
    | none =>
      [Event.println "📄 Fetching Notion content...",
       Event.panic "runtime error: invalid memory address or nil pointer dereference"]
    | some (_, some err) => fetchTrace w ++ [Event.println ("❌ Error: " ++ err)]
    | some (context, none) =>
      if goLen context = 0 then
        fetchTrace w ++ [Event.println "❌ No content fetched."]
      else
        fetchTrace w ++ askTrace w context

/-! ## The data model in the words of the specification -/

/-- The rich-text payload of a block: the array stored under `rich_text` in the object
keyed by the block's `type` tag, when the block has that shape. -/
def richTextOf (blk : GoMap) : Option (List GoValue) :=
  (asString (mapIndex blk "type")).bind fun t =>
    (asMap (mapIndex blk t)).bind fun payload => asSlice (mapIndex payload "rich_text")

/-- The `plain_text` of a span, when the span is an object holding a string there. -/
def plainTextOf (span : GoValue) : Option String :=
  (asMap span).bind fun rt => asString (mapIndex rt "plain_text")

/-- The spans of a block, none for a block without a rich-text payload. -/
def spansOf (blk : GoMap) : List GoValue := (richTextOf blk).getD []

/-- The flattening of the specification: block by block, span by span, the
`plain_text` of every well-formed span. -/
def specLines (blocks : List GoMap) : List String :=
  (blocks.map fun blk => (spansOf blk).filterMap plainTextOf).flatten

/-- The number of spans over all blocks with a rich-text payload. -/
def spanCount (blocks : List GoMap) : Nat :=
  (blocks.map fun blk => (spansOf blk).length).sum

/-- A well-formed block collection: every span of every block is an object with a
string `plain_text`. -/
def wellFormedBlocks (blocks : List GoMap) : Bool :=
  blocks.all fun blk => (spansOf blk).all fun span => (plainTextOf span).isSome

/-- The lines of a text: the text split at every line feed (Go `strings.Split(s, "\n")`,
which yields one empty line for the empty text). -/
def outputLines (s : String) : List String :=
  (s.data.splitOn '\n').map String.mk

/-- The code points with the Unicode property `White_Space`. -/
def whiteSpaceRunes : List Nat :=
  [0x0009, 0x000A, 0x000B, 0x000C, 0x000D, 0x0020, 0x0085, 0x00A0, 0x1680,
   0x2000, 0x2001, 0x2002, 0x2003, 0x2004, 0x2005, 0x2006, 0x2007, 0x2008, 0x2009, 0x200A,
   0x2028, 0x2029, 0x202F, 0x205F, 0x3000]

/-- White space in the words of the specification: a character whose code point has
the Unicode property `White_Space`. -/
def isWhiteSpace (c : Char) : Bool := whiteSpaceRunes.contains c.toNat

/-- The text `answer` is `content` with its leading and trailing white space removed:
`content` is a run of white space, then `answer`, then a run of white space, and
`answer` neither starts nor ends with white space. -/
def IsTrimOf (answer content : String) : Prop :=
  (∃ leading trailing : List Char,
    content.data = leading ++ answer.data ++ trailing ∧
    (∀ c ∈ leading, isWhiteSpace c = true) ∧
    (∀ c ∈ trailing, isWhiteSpace c = true)) ∧
  (∀ c, answer.data.head? = some c → isWhiteSpace c = false) ∧
  (∀ c, answer.data.getLast? = some c → isWhiteSpace c = false)

/-! ## Sample inputs -/

/-- A paragraph block whose rich text is the spans `texts`, as the Notion API sends it. -/
def paragraphBlock (texts : List String) : GoMap :=
  [("object", GoValue.string "block"),
   ("type", GoValue.string "paragraph"),
   ("paragraph", GoValue.map
      [("rich_text", GoValue.slice
          (texts.map fun t =>
            GoValue.map [("type", GoValue.string "text"), ("plain_text", GoValue.string t)])),
       ("color", GoValue.string "default")])]

/-- A reply of the source service with the given status and blocks. -/
def notionServes (status : Nat) (blocks : List GoMap) (err : Option String) :
    String → String → DoOutcome :=
  fun _ _ => DoOutcome.replied ⟨status, blocks, err⟩

/-- A block tagged `divider` carries no object under its type key in this sample. -/
def dividerBlock : GoMap :=
  [("object", GoValue.string "block"), ("type", GoValue.string "divider")]

/-- A paragraph whose middle span holds a number, not a string, under `plain_text`. -/
def blockWithBadSpan : GoMap :=
  [("type", GoValue.string "paragraph"),
   ("paragraph", GoValue.map
      [("rich_text", GoValue.slice
          [GoValue.map [("plain_text", GoValue.string "a")],
           GoValue.map [("plain_text", GoValue.float64 0)],
           GoValue.map [("plain_text", GoValue.string "b")]])])]

/-- The same block without the bad span. -/
def blockWithoutBadSpan : GoMap :=
  [("type", GoValue.string "paragraph"),
   ("paragraph", GoValue.map
      [("rich_text", GoValue.slice
          [GoValue.map [("plain_text", GoValue.string "a")],
           GoValue.map [("plain_text", GoValue.string "b")]])])]

/-- A reply of the inference service with the given status and choices. -/
def openaiServes (status : Nat) (choices : List Choice) (err : Option String) :
    String → String → Except String OpenAIReply :=
  fun _ _ => Except.ok ⟨status, choices, err⟩

/-- A source service whose connection fails with the message `e`. -/
def notionFails (e : String) : String → String → DoOutcome :=
  fun _ _ => DoOutcome.failed e

/-- A run whose environment loads and whose source service serves `blocks`. -/
def sampleWorld (blocks : List GoMap) : World where
  dotenvErr := none
  getenv := fun name => name ++ "-value"
  notionDo := notionServes 200 blocks none
  stdinLine := "What is this page about?\n"
  openaiDo := openaiServes 200 [⟨⟨"  42  "⟩⟩] none

/-! ## Auxiliary lemmas -/

theorem appendSpans_eq (lines : List String) (rtArr : List GoValue) :
    appendSpans lines rtArr = lines ++ rtArr.filterMap plainTextOf := by
  unfold appendSpans
  induction rtArr generalizing lines with
  | nil => simp
  | cons x xs ih =>
    rw [List.foldl_cons, ih]
    cases hx : asMap x with
    | none => simp [plainTextOf, hx, List.filterMap_cons]
    | some rt =>
      cases hp : asString (mapIndex rt "plain_text") with
      | none => simp [plainTextOf, hx, hp, List.filterMap_cons]
      | some plain => simp [plainTextOf, hx, hp, List.filterMap_cons]

theorem blockStep_eq (lines : List String) (blk : GoMap) :
    blockStep lines blk = lines ++ (spansOf blk).filterMap plainTextOf := by
  unfold blockStep spansOf richTextOf
  cases ht : asString (mapIndex blk "type") with
  | none => simp
  | some t =>
    cases ho : asMap (mapIndex blk t) with
    | none => simp [ho]
    | some o =>
      cases hr : asSlice (mapIndex o "rich_text") with
      | none => simp [ho, hr]
      | some arr => simp [ho, hr, appendSpans_eq]

theorem foldl_blockStep (lines : List String) (blocks : List GoMap) :
    blocks.foldl blockStep lines = lines ++ specLines blocks := by
  induction blocks generalizing lines with
  | nil => simp [specLines]
  | cons b bs ih =>
    rw [List.foldl_cons, ih, blockStep_eq]
    simp [specLines, List.append_assoc]

theorem extractLines_eq (blocks : List GoMap) : extractLines blocks = specLines blocks := by
  simp [extractLines, foldl_blockStep]

theorem specLines_append (xs ys : List GoMap) :
    specLines (xs ++ ys) = specLines xs ++ specLines ys := by
  simp [specLines]

theorem specLines_cons (b : GoMap) (bs : List GoMap) :
    specLines (b :: bs) = (spansOf b).filterMap plainTextOf ++ specLines bs := by
  simp [specLines]

theorem intercalate_go_eq (sep : String) (acc : String) (rest : List String) :
    String.intercalate.go acc sep rest = rest.foldl (fun b s => b ++ sep ++ s) acc := by
  induction rest generalizing acc with
  | nil => simp [String.intercalate.go]
  | cons x xs ih => simp [String.intercalate.go, ih]

theorem stringsJoin_eq_intercalate (elems : List String) (sep : String) :
    stringsJoin elems sep = sep.intercalate elems := by
  cases elems with
  | nil => rfl
  | cons a rest =>
    cases rest with
    | nil => simp [stringsJoin, String.intercalate, String.intercalate.go]
    | cons b rest => simp [stringsJoin, String.intercalate, intercalate_go_eq]

theorem fetch_ok (Do : String → String → DoOutcome) (pageID token : String)
    (reply : NotionReply) (h : Do pageID token = DoOutcome.replied reply) :
    fetchNotionContent Do pageID token =
      some (stringsJoin (specLines reply.Results) "\n", none) := by
  simp [fetchNotionContent, h, extractLines_eq]

theorem trim_head?_not {α} (p : α → Bool) (l : List α) (c : α)
    (h : ((l.dropWhile p).rdropWhile p).head? = some c) : p c = false := by
  obtain ⟨t, ht⟩ := List.rdropWhile_prefix p (l := l.dropWhile p)
  cases hr : (l.dropWhile p).rdropWhile p with
  | nil => simp [hr] at h
  | cons x xs =>
    rw [hr] at h ht
    simp only [List.head?_cons, Option.some.injEq] at h
    subst h
    have := List.head?_dropWhile_not p l
    rw [← ht] at this
    simpa using this

theorem trim_getLast?_not {α} (p : α → Bool) (l : List α) (c : α)
    (h : ((l.dropWhile p).rdropWhile p).getLast? = some c) : p c = false := by
  have hne : (l.dropWhile p).rdropWhile p ≠ [] := by
    intro h0; simp [h0] at h
  have := List.rdropWhile_last_not p (l.dropWhile p) hne
  rw [List.getLast?_eq_getLast _ hne] at h
  simp only [Option.some.injEq] at h
  rw [h] at this
  simpa using this

theorem trim_idem {α} (p : α → Bool) (l : List α) :
    ((((l.dropWhile p).rdropWhile p).dropWhile p).rdropWhile p) = (l.dropWhile p).rdropWhile p := by
  have h1 : ((l.dropWhile p).rdropWhile p).dropWhile p = (l.dropWhile p).rdropWhile p := by
    cases hr : (l.dropWhile p).rdropWhile p with
    | nil => simp
    | cons x xs =>
      have := trim_head?_not p l x (by simp [hr])
      simp [List.dropWhile_cons, this]
  rw [h1, List.rdropWhile_idempotent]

theorem unicodeIsSpace_eq (c : Char) : unicodeIsSpace c = isWhiteSpace c := by
  unfold unicodeIsSpace isWhiteSpace whiteSpaceRunes
  generalize c.toNat = n
  rw [Bool.eq_iff_iff]
  simp only [List.contains_eq_any_beq, List.any_cons, List.any_nil, Bool.or_false]
  split <;> simp <;> omega

theorem rdropWhile_append_rtakeWhile {α} (p : α → Bool) (l : List α) :
    l.rdropWhile p ++ l.rtakeWhile p = l := by
  unfold List.rdropWhile List.rtakeWhile
  rw [← List.reverse_append, List.takeWhile_append_dropWhile, List.reverse_reverse]

theorem trim_decompose {α} (p : α → Bool) (l : List α) :
    l = l.takeWhile p ++ (l.dropWhile p).rdropWhile p ++ (l.dropWhile p).rtakeWhile p := by
  rw [List.append_assoc, rdropWhile_append_rtakeWhile, List.takeWhile_append_dropWhile]

theorem stringsTrimSpace_isTrimOf (content : String) :
    IsTrimOf (stringsTrimSpace content) content := by
  refine ⟨⟨content.data.takeWhile unicodeIsSpace,
    (content.data.dropWhile unicodeIsSpace).rtakeWhile unicodeIsSpace, ?_, ?_, ?_⟩, ?_, ?_⟩
  · exact trim_decompose unicodeIsSpace content.data
  · intro c hc
    rw [← unicodeIsSpace_eq]
    exact List.mem_takeWhile_imp hc
  · intro c hc
    rw [← unicodeIsSpace_eq]
    exact List.mem_rtakeWhile_imp hc
  · intro c hc
    rw [← unicodeIsSpace_eq]
    exact trim_head?_not unicodeIsSpace _ c hc
  · intro c hc
    rw [← unicodeIsSpace_eq]
    exact trim_getLast?_not unicodeIsSpace _ c hc

theorem dropWhile_append_of_all {α} (p : α → Bool) (l rest : List α)
    (hl : ∀ c ∈ l, p c = true) (hr : ∀ c, rest.head? = some c → p c = false) :
    (l ++ rest).dropWhile p = rest := by
  induction l with
  | nil =>
    cases rest with
    | nil => rfl
    | cons x xs =>
      have := hr x rfl
      simp [List.dropWhile_cons, this]
  | cons x xs ih =>
    have hx := hl x (List.mem_cons_self _ _)
    simp only [List.cons_append, List.dropWhile_cons, hx, if_true]
    exact ih (fun c hc => hl c (List.mem_cons_of_mem _ hc))

theorem trim_of_decomp {α} (p : α → Bool) (l1 a t1 : List α)
    (hl : ∀ c ∈ l1, p c = true) (ht : ∀ c ∈ t1, p c = true)
    (hh : ∀ c, a.head? = some c → p c = false)
    (hlast : ∀ c, a.getLast? = some c → p c = false) :
    ((l1 ++ a ++ t1).dropWhile p).rdropWhile p = a := by
  cases a with
  | nil =>
    have hall : ∀ c ∈ l1 ++ [] ++ t1, p c = true := by
      intro c hc
      simp only [List.append_nil, List.mem_append] at hc
      rcases hc with h | h
      · exact hl c h
      · exact ht c h
    have : (l1 ++ [] ++ t1).dropWhile p = [] := by
      rw [List.dropWhile_eq_nil_iff]
      exact hall
    rw [this]; rfl
  | cons x xs =>
    have h1 : (l1 ++ (x :: xs) ++ t1).dropWhile p = (x :: xs) ++ t1 := by
      rw [List.append_assoc]
      apply dropWhile_append_of_all p l1 _ hl
      intro c hc
      exact hh c (by simpa using hc)
    rw [h1]
    unfold List.rdropWhile
    rw [List.reverse_append, dropWhile_append_of_all p t1.reverse (x :: xs).reverse]
    · simp
    · intro c hc
      exact ht c (List.mem_reverse.mp hc)
    · intro c hc
      apply hlast c
      rw [List.head?_reverse] at hc
      exact hc

/-- A text has exactly one trimmed form: an answer that is `content` without its
leading and trailing white space is the text `stringsTrimSpace` computes. -/
theorem isTrimOf_unique (answer content : String) (h : IsTrimOf answer content) :
    answer = stringsTrimSpace content := by
  obtain ⟨⟨leading, trailing, hdata, hl, ht⟩, hh, hlast⟩ := h
  have hp : ∀ c, unicodeIsSpace c = isWhiteSpace c := unicodeIsSpace_eq
  have key := trim_of_decomp unicodeIsSpace leading answer.data trailing
    (fun c hc => by rw [hp]; exact hl c hc) (fun c hc => by rw [hp]; exact ht c hc)
    (fun c hc => by rw [hp]; exact hh c hc) (fun c hc => by rw [hp]; exact hlast c hc)
  unfold stringsTrimSpace
  rw [hdata, key]

theorem utf8ByteSize_eq_zero (s : String) : s.utf8ByteSize = 0 ↔ s = "" := by
  constructor
  · intro h
    rcases s with ⟨cs⟩
    cases cs with
    | nil => rfl
    | cons c cs =>
      have hc := c.utf8Size_pos
      simp [String.utf8ByteSize, String.utf8ByteSize.go] at h
      omega
  · intro h; subst h; rfl

theorem goLen_eq_zero (s : String) : goLen s = 0 ↔ s = "" :=
  utf8ByteSize_eq_zero s

theorem foldl_join_append (sep x y : String) (rest : List String) :
    rest.foldl (fun b s => b ++ sep ++ s) (x ++ y) =
      x ++ rest.foldl (fun b s => b ++ sep ++ s) y := by
  induction rest generalizing y with
  | nil => simp
  | cons r rs ih =>
    simp only [List.foldl_cons]
    rw [← ih (y ++ sep ++ r)]
    simp [String.append_assoc]

theorem stringsJoin_cons_cons (a b : String) (rest : List String) (sep : String) :
    stringsJoin (a :: b :: rest) sep = a ++ sep ++ stringsJoin (b :: rest) sep := by
  have hb : stringsJoin (b :: rest) sep = rest.foldl (fun x s => x ++ sep ++ s) b := by
    cases rest <;> simp [stringsJoin]
  rw [hb]
  simp only [stringsJoin, List.foldl_cons]
  rw [foldl_join_append]

theorem stringsJoin_data (lines : List String) :
    (stringsJoin lines "\n").data = ['\n'].intercalate (lines.map String.data) := by
  induction lines with
  | nil => rfl
  | cons a rest ih =>
    cases rest with
    | nil => simp [stringsJoin, List.intercalate]
    | cons b rest =>
      rw [stringsJoin_cons_cons, String.data_append, String.data_append, ih]
      simp [List.intercalate, List.intersperse]

theorem stringsJoin_eq_empty (lines : List String) :
    stringsJoin lines "\n" = "" ↔ lines = [] ∨ lines = [""] := by
  cases lines with
  | nil => simp [stringsJoin]
  | cons a rest =>
    cases rest with
    | nil => simp [stringsJoin]
    | cons b rest =>
      rw [stringsJoin_cons_cons]
      constructor
      · intro h
        have := congrArg String.data h
        simp at this
      · intro h
        simp at h

theorem outputLines_join (lines : List String) (hne : lines ≠ [])
    (hnl : ∀ l ∈ lines, '\n' ∉ l.data) :
    outputLines (stringsJoin lines "\n") = lines := by
  unfold outputLines
  rw [stringsJoin_data, List.splitOn_intercalate]
  · simp [List.map_map, Function.comp_def]
  · intro l hl
    obtain ⟨x, hx, rfl⟩ := List.mem_map.mp hl
    exact hnl x hx
  · simpa using hne

theorem specLines_length (blocks : List GoMap) (hwf : wellFormedBlocks blocks = true) :
    (specLines blocks).length = spanCount blocks := by
  induction blocks with
  | nil => rfl
  | cons b bs ih =>
    simp only [wellFormedBlocks, List.all_cons, Bool.and_eq_true] at hwf
    have ih' := ih (by simpa [wellFormedBlocks] using hwf.2)
    have hb : ((spansOf b).filterMap plainTextOf).length = (spansOf b).length := by
      have hall := hwf.1
      generalize spansOf b = spans at hall
      induction spans with
      | nil => rfl
      | cons x xs ihx =>
        simp only [List.all_cons, Bool.and_eq_true] at hall
        obtain ⟨v, hv⟩ := Option.isSome_iff_exists.mp hall.1
        simp [List.filterMap_cons, hv, ihx hall.2]
    rw [specLines_cons, List.length_append, hb, ih']
    simp [spanCount]

theorem askTrace_length (w : World) (context : String) : (askTrace w context).length = 5 := by
  unfold askTrace
  rcases h : askOpenAI w.openaiDo (stringsTrimSpace w.stdinLine) context
    (w.getenv "OPENAI_API_KEY") with ⟨answer, _ | err⟩ <;> simp [h]

theorem readStdin_mem_askTrace (w : World) (context : String) :
    Event.readStdin ∈ askTrace w context := by
  unfold askTrace
  rcases h : askOpenAI w.openaiDo (stringsTrimSpace w.stdinLine) context
    (w.getenv "OPENAI_API_KEY") with ⟨answer, _ | err⟩ <;> simp [h]

theorem main_of_fetch_ok (w : World) (reply : NotionReply) (henv : w.dotenvErr = none)
    (hdo : w.notionDo (w.getenv "NOTION_PAGE_ID") (w.getenv "NOTION_API_KEY") =
      DoOutcome.replied reply) :
    main w =
      if goLen (stringsJoin (extractLines reply.Results) "\n") = 0 then
        fetchTrace w ++ [Event.println "❌ No content fetched."]
      else fetchTrace w ++ askTrace w (stringsJoin (extractLines reply.Results) "\n") := by
  simp [main, henv, fetchNotionContent, hdo]

set_option maxRecDepth 100000 in
theorem sprintf_promptFormat (question context : String) :
    sprintf promptFormat [context, question] =
      some ("\nYou are a helpful assistant. Answer the user\x27s question based on the following Notion content.\n\n--- Notion Content ---\n"
        ++ (context ++ ("\n-----------------------\n\nQuestion: " ++ (question ++ "\nAnswer:\n")))) := by
  rfl

/-! ## The claims -/

/-- C1: whenever the source service answers, `fetchNotionContent` returns, with a nil
error, the newline-join of the `plain_text` of every well-formed span, block by block
and span by span in source order, nothing reordered, merged or left out. -/
theorem C1_fetch_is_ordered_join
    (Do : String → String → DoOutcome) (pageID token : String)
    (reply : NotionReply) (hdo : Do pageID token = DoOutcome.replied reply) :
    fetchNotionContent Do pageID token =
      some ("\n".intercalate (specLines reply.Results), none) := by
  rw [fetch_ok Do pageID token reply hdo, stringsJoin_eq_intercalate]

/-- Scenario A: one paragraph with the spans "Hello, " and "world." yields
"Hello, \nworld.". -/
theorem C1_fetch_is_ordered_join_witness :
    specLines [paragraphBlock ["Hello, ", "world."]] = ["Hello, ", "world."] ∧
    fetchNotionContent (notionServes 200 [paragraphBlock ["Hello, ", "world."]] none)
      "page" "secret" = some ("Hello, \nworld.", none) :=
  ⟨by decide,
    (C1_fetch_is_ordered_join (notionServes 200 [paragraphBlock ["Hello, ", "world."]] none)
      "page" "secret" ⟨200, [paragraphBlock ["Hello, ", "world."]], none⟩ rfl).trans
      (by decide)⟩

/-- C2: a block without a string `type`, without an object under its type key or
without an array under `rich_text` contributes nothing: the call succeeds and returns
what it returns for the collection without that block; a span that is not an object
with a string `plain_text` is dropped likewise, the other spans being unaffected. -/
theorem C2_malformed_items_are_skipped
    (status : Nat) (err : Option String) (pageID token : String)
    (before after : List GoMap) (bad : GoMap)
    (hbad : asString (mapIndex bad "type") = none ∨
      (∃ t, asString (mapIndex bad "type") = some t ∧ asMap (mapIndex bad t) = none) ∨
      (∃ t payload, asString (mapIndex bad "type") = some t ∧
        asMap (mapIndex bad t) = some payload ∧
        asSlice (mapIndex payload "rich_text") = none))
    (blk blk' : GoMap) (spansBefore spansAfter : List GoValue) (badSpan : GoValue)
    (hspan : asMap badSpan = none ∨
      ∃ rt, asMap badSpan = some rt ∧ asString (mapIndex rt "plain_text") = none)
    (hblk : richTextOf blk = some (spansBefore ++ badSpan :: spansAfter))
    (hblk' : richTextOf blk' = some (spansBefore ++ spansAfter)) :
    (fetchNotionContent (notionServes status (before ++ bad :: after) err) pageID token =
        fetchNotionContent (notionServes status (before ++ after) err) pageID token ∧
      ∃ text, fetchNotionContent (notionServes status (before ++ bad :: after) err)
        pageID token = some (text, none)) ∧
    (fetchNotionContent (notionServes status (before ++ blk :: after) err) pageID token =
        fetchNotionContent (notionServes status (before ++ blk' :: after) err) pageID token ∧
      ∃ text, fetchNotionContent (notionServes status (before ++ blk :: after) err)
        pageID token = some (text, none)) := by
  have hnone : spansOf bad = [] := by
    unfold spansOf richTextOf
    rcases hbad with h | ⟨t, h1, h2⟩ | ⟨t, payload, h1, h2, h3⟩
    · simp [h]
    · simp [h1, h2]
    · simp [h1, h2, h3]
  have hdrop : plainTextOf badSpan = none := by
    unfold plainTextOf
    rcases hspan with h | ⟨rt, h1, h2⟩
    · simp [h]
    · simp [h1, h2]
  have e1 : specLines (before ++ bad :: after) = specLines (before ++ after) := by
    simp [specLines_append, specLines_cons, hnone]
  have e2 : specLines (before ++ blk :: after) = specLines (before ++ blk' :: after) := by
    simp [specLines_append, specLines_cons, spansOf, hblk, hblk', List.filterMap_append,
      List.filterMap_cons, hdrop]
  simp [fetchNotionContent, notionServes, extractLines_eq, e1, e2]

theorem C2_malformed_items_are_skipped_witness :
    fetchNotionContent (notionServes 200
        ([paragraphBlock ["x"]] ++ dividerBlock :: [paragraphBlock ["y"]]) none) "p" "t" =
      some ("x\ny", none) ∧
    fetchNotionContent (notionServes 200
        ([paragraphBlock ["x"]] ++ blockWithBadSpan :: [paragraphBlock ["y"]]) none) "p" "t" =
      some ("x\na\nb\ny", none) ∧
    ((fetchNotionContent (notionServes 200
          ([paragraphBlock ["x"]] ++ dividerBlock :: [paragraphBlock ["y"]]) none) "p" "t" =
        fetchNotionContent (notionServes 200
          ([paragraphBlock ["x"]] ++ [paragraphBlock ["y"]]) none) "p" "t" ∧
      ∃ text, fetchNotionContent (notionServes 200
          ([paragraphBlock ["x"]] ++ dividerBlock :: [paragraphBlock ["y"]]) none)
        "p" "t" = some (text, none)) ∧
    (fetchNotionContent (notionServes 200
          ([paragraphBlock ["x"]] ++ blockWithBadSpan :: [paragraphBlock ["y"]]) none) "p" "t" =
        fetchNotionContent (notionServes 200
          ([paragraphBlock ["x"]] ++ blockWithoutBadSpan :: [paragraphBlock ["y"]]) none)
          "p" "t" ∧
      ∃ text, fetchNotionContent (notionServes 200
          ([paragraphBlock ["x"]] ++ blockWithBadSpan :: [paragraphBlock ["y"]]) none)
        "p" "t" = some (text, none))) :=
  ⟨by decide, by decide,
    C2_malformed_items_are_skipped 200 none "p" "t" [paragraphBlock ["x"]]
      [paragraphBlock ["y"]] dividerBlock
      (Or.inr (Or.inl ⟨"divider", rfl, rfl⟩))
      blockWithBadSpan blockWithoutBadSpan
      [GoValue.map [("plain_text", GoValue.string "a")]]
      [GoValue.map [("plain_text", GoValue.string "b")]]
      (GoValue.map [("plain_text", GoValue.float64 0)])
      (Or.inr ⟨[("plain_text", GoValue.float64 0)], rfl, rfl⟩)
      rfl rfl⟩

/-- C3: the prompt `askOpenAI` composes is a fixed preamble, the context verbatim, a
fixed separator, the question verbatim and a fixed ending, in that order, for every
question and context; this prompt is the one handed to the inference service. -/
theorem C3_prompt_shape (question context : String) :
    sprintf promptFormat [context, question] =
      some ("\nYou are a helpful assistant. Answer the user\x27s question based on the following Notion content.\n\n--- Notion Content ---\n"
        ++ context ++ "\n-----------------------\n\nQuestion: " ++ question ++ "\nAnswer:\n") ∧
    composePrompt question context =
      "\nYou are a helpful assistant. Answer the user\x27s question based on the following Notion content.\n\n--- Notion Content ---\n"
        ++ context ++ "\n-----------------------\n\nQuestion: " ++ question ++ "\nAnswer:\n" ∧
    ∀ (Do : String → String → Except String OpenAIReply) (apiKey : String),
      askOpenAI Do question context apiKey =
        match Do ("\nYou are a helpful assistant. Answer the user\x27s question based on the following Notion content.\n\n--- Notion Content ---\n"
          ++ context ++ "\n-----------------------\n\nQuestion: " ++ question ++ "\nAnswer:\n")
          apiKey with
        | Except.error err => ("", some err)
        | Except.ok resp => firstAnswer resp.Choices := by
  have h := sprintf_promptFormat question context
  have h' : sprintf promptFormat [context, question] =
      some ("\nYou are a helpful assistant. Answer the user\x27s question based on the following Notion content.\n\n--- Notion Content ---\n"
        ++ context ++ "\n-----------------------\n\nQuestion: " ++ question ++ "\nAnswer:\n") := by
    rw [h]; simp only [String.append_assoc]
  refine ⟨h', ?_, ?_⟩
  · simp [composePrompt, h']
  · intro Do apiKey
    simp [askOpenAI, composePrompt, h']

/-- C4: when the inference service answers with no choice at all, `askOpenAI` returns
the error `no response from OpenAI`; it does not return the empty answer with a nil
error. -/
theorem C4_no_choice_is_an_error
    (Do : String → String → Except String OpenAIReply) (question context apiKey : String)
    (reply : OpenAIReply)
    (hdo : Do (composePrompt question context) apiKey = Except.ok reply)
    (hempty : reply.Choices = []) :
    askOpenAI Do question context apiKey = ("", some "no response from OpenAI") ∧
    askOpenAI Do question context apiKey ≠ ("", none) ∧
    (askOpenAI Do question context apiKey).2 ≠ none := by
  simp [askOpenAI, hdo, firstAnswer, hempty]

theorem C4_no_choice_is_an_error_witness :
    askOpenAI (openaiServes 200 [] none) "q" "ctx" "key" = ("", some "no response from OpenAI") ∧
    askOpenAI (openaiServes 200 [] none) "q" "ctx" "key" ≠ ("", none) ∧
    (askOpenAI (openaiServes 200 [] none) "q" "ctx" "key").2 ≠ none :=
  C4_no_choice_is_an_error (openaiServes 200 [] none) "q" "ctx" "key" ⟨200, [], none⟩ rfl rfl

/-- C5: when the inference service answers with at least one choice, `askOpenAI`
succeeds with exactly the content of the first choice without its leading and trailing
white space, whatever the later choices are: the content is a run of white space, the
answer, and a run of white space, the answer neither starts nor ends with white space,
no other text has this property, and trimming the answer again changes nothing. -/
theorem C5_first_choice_trimmed
    (Do : String → String → Except String OpenAIReply) (question context apiKey : String)
    (reply : OpenAIReply) (first : Choice) (later : List Choice)
    (hdo : Do (composePrompt question context) apiKey = Except.ok reply)
    (hchoices : reply.Choices = first :: later) :
    askOpenAI Do question context apiKey = (stringsTrimSpace first.Message.Content, none) ∧
    stringsTrimSpace (askOpenAI Do question context apiKey).1 =
      (askOpenAI Do question context apiKey).1 ∧
    (∀ c, (askOpenAI Do question context apiKey).1.data.head? = some c →
      unicodeIsSpace c = false) ∧
    (∀ c, (askOpenAI Do question context apiKey).1.data.getLast? = some c →
      unicodeIsSpace c = false) ∧
    (askOpenAI Do question context apiKey).2 = none ∧
    IsTrimOf (askOpenAI Do question context apiKey).1 first.Message.Content ∧
    (∀ other : String, IsTrimOf other first.Message.Content →
      other = (askOpenAI Do question context apiKey).1) := by
  have h : askOpenAI Do question context apiKey =
      (stringsTrimSpace first.Message.Content, none) := by
    simp [askOpenAI, hdo, firstAnswer, hchoices]
  rw [h]
  refine ⟨rfl, ?_, ?_, ?_, rfl, ?_, ?_⟩
  · simp only [stringsTrimSpace]
    rw [trim_idem]
  · intro c hc
    exact trim_head?_not unicodeIsSpace _ c hc
  · intro c hc
    exact trim_getLast?_not unicodeIsSpace _ c hc
  · exact stringsTrimSpace_isTrimOf _
  · intro other hother
    exact isTrimOf_unique other _ hother

/-- Scenario C: the single choice with content "  42  " yields the answer "42", whose
content is two spaces, "42" and two spaces; a second choice does not change it, and
a tab, a no-break space and a line break around "forty two" are removed while the
space inside stays. -/
theorem C5_first_choice_trimmed_witness :
    askOpenAI (openaiServes 200 [⟨⟨"  42  "⟩⟩] none) "q" "ctx" "key" = ("42", none) ∧
    IsTrimOf "42" "  42  " ∧
    askOpenAI (openaiServes 200 [⟨⟨"  42  "⟩⟩, ⟨⟨"other"⟩⟩] none) "q" "ctx" "key" =
      ("42", none) ∧
    askOpenAI (openaiServes 200 [⟨⟨"\t\u00a0forty two\r\n"⟩⟩] none) "q" "ctx" "key" =
      ("forty two", none) :=
  ⟨(C5_first_choice_trimmed (openaiServes 200 [⟨⟨"  42  "⟩⟩] none) "q" "ctx" "key"
      ⟨200, [⟨⟨"  42  "⟩⟩], none⟩ ⟨⟨"  42  "⟩⟩ [] rfl rfl).1.trans (by decide),
    (C5_first_choice_trimmed (openaiServes 200 [⟨⟨"  42  "⟩⟩] none) "q" "ctx" "key"
      ⟨200, [⟨⟨"  42  "⟩⟩], none⟩ ⟨⟨"  42  "⟩⟩ [] rfl rfl).2.2.2.2.2.1,
    (C5_first_choice_trimmed (openaiServes 200 [⟨⟨"  42  "⟩⟩, ⟨⟨"other"⟩⟩] none) "q" "ctx" "key"
      ⟨200, [⟨⟨"  42  "⟩⟩, ⟨⟨"other"⟩⟩], none⟩ ⟨⟨"  42  "⟩⟩ [⟨⟨"other"⟩⟩] rfl rfl).1.trans
      (by decide),
    (C5_first_choice_trimmed (openaiServes 200 [⟨⟨"\t\u00a0forty two\r\n"⟩⟩] none)
      "q" "ctx" "key" ⟨200, [⟨⟨"\t\u00a0forty two\r\n"⟩⟩], none⟩
      ⟨⟨"\t\u00a0forty two\r\n"⟩⟩ [] rfl rfl).1.trans (by decide)⟩

/-- C6: when the source service answers with no block, `fetchNotionContent` returns the
empty context with a nil error, and the run prints the progress line, performs the
fetch, prints the no-content line and ends: the question is never read and the
inference service is never called. -/
theorem C6_empty_results_abort (w : World) (reply : NotionReply)
    (henv : w.dotenvErr = none)
    (hdo : w.notionDo (w.getenv "NOTION_PAGE_ID") (w.getenv "NOTION_API_KEY") =
      DoOutcome.replied reply)
    (hempty : reply.Results = []) :
    fetchNotionContent w.notionDo (w.getenv "NOTION_PAGE_ID") (w.getenv "NOTION_API_KEY") =
      some ("", none) ∧
    main w =
      [Event.println "📄 Fetching Notion content...",
       Event.notionGet (w.getenv "NOTION_PAGE_ID") (w.getenv "NOTION_API_KEY"),
       Event.println "❌ No content fetched."] ∧
    Event.readStdin ∉ main w ∧
    ∀ prompt apiKey, Event.openaiPost prompt apiKey ∉ main w := by
  have hmain := main_of_fetch_ok w reply henv hdo
  have hjoin : stringsJoin (extractLines reply.Results) "\n" = "" := by
    rw [hempty]; rfl
  rw [hjoin] at hmain
  have hlen : goLen "" = 0 := rfl
  rw [if_pos hlen] at hmain
  refine ⟨?_, ?_, ?_, ?_⟩
  · simp [fetchNotionContent, hdo, hjoin]
  · rw [hmain]; rfl
  · rw [hmain]; simp [fetchTrace]
  · intro prompt apiKey
    rw [hmain]; simp [fetchTrace]

theorem C6_empty_results_abort_witness :
    fetchNotionContent (sampleWorld []).notionDo "NOTION_PAGE_ID-value" "NOTION_API_KEY-value" =
      some ("", none) ∧
    main (sampleWorld []) =
      [Event.println "📄 Fetching Notion content...",
       Event.notionGet "NOTION_PAGE_ID-value" "NOTION_API_KEY-value",
       Event.println "❌ No content fetched."] ∧
    Event.readStdin ∉ main (sampleWorld []) ∧
    ∀ prompt apiKey, Event.openaiPost prompt apiKey ∉ main (sampleWorld []) :=
  C6_empty_results_abort (sampleWorld []) ⟨200, [], none⟩ rfl rfl rfl

/-- C7, as stated, fails: a well-formed collection with one span whose text holds a
line feed yields two lines, and the collection without any span yields one (empty)
line. -/
theorem C7_counterexample :
    (wellFormedBlocks [paragraphBlock ["first line\nsecond line"]] = true ∧
      spanCount [paragraphBlock ["first line\nsecond line"]] = 1 ∧
      fetchNotionContent (notionServes 200 [paragraphBlock ["first line\nsecond line"]] none)
        "page" "secret" = some ("first line\nsecond line", none) ∧
      (outputLines "first line\nsecond line").length = 2) ∧
    (wellFormedBlocks [] = true ∧ spanCount [] = 0 ∧
      fetchNotionContent (notionServes 200 [] none) "page" "secret" = some ("", none) ∧
      (outputLines "").length = 1) := by
  decide

/-- C7, amended: for a well-formed block collection with at least one span and no line
feed inside any `plain_text`, the lines of the returned text are exactly the
`plain_text` values block by block and span by span, so their number is the total
number of spans. -/
theorem C7_line_count_amended
    (Do : String → String → DoOutcome) (pageID token : String)
    (reply : NotionReply) (hdo : Do pageID token = DoOutcome.replied reply)
    (hwf : wellFormedBlocks reply.Results = true)
    (hsome : spanCount reply.Results ≠ 0)
    (hnl : ∀ line ∈ specLines reply.Results, '\n' ∉ line.data) :
    ∃ text, fetchNotionContent Do pageID token = some (text, none) ∧
      outputLines text = specLines reply.Results ∧
      (outputLines text).length = spanCount reply.Results := by
  have hlen := specLines_length reply.Results hwf
  have hne : specLines reply.Results ≠ [] := by
    intro h
    rw [h] at hlen
    exact hsome hlen.symm
  have hout : outputLines (stringsJoin (specLines reply.Results) "\n") =
      specLines reply.Results := outputLines_join _ hne hnl
  exact ⟨_, fetch_ok Do pageID token reply hdo, hout, by rw [hout, hlen]⟩

theorem C7_line_count_amended_witness :
    ∃ text, fetchNotionContent
        (notionServes 200 [paragraphBlock ["Hello, ", "world."], paragraphBlock ["Bye."]] none)
        "page" "secret" = some (text, none) ∧
      outputLines text =
        specLines [paragraphBlock ["Hello, ", "world."], paragraphBlock ["Bye."]] ∧
      (outputLines text).length =
        spanCount [paragraphBlock ["Hello, ", "world."], paragraphBlock ["Bye."]] :=
  C7_line_count_amended
    (notionServes 200 [paragraphBlock ["Hello, ", "world."], paragraphBlock ["Bye."]] none)
    "page" "secret" ⟨200, [paragraphBlock ["Hello, ", "world."], paragraphBlock ["Bye."]], none⟩
    rfl (by decide) (by decide) (by decide)

/-- C8, as stated, fails: a reply with status 404 and no block gives the empty context
with a nil error, and a reply with status 500 whose body holds a block gives that
block's text with a nil error. -/
theorem C8_counterexample :
    (¬ (200 ≤ 404 ∧ 404 < 300) ∧
      fetchNotionContent (notionServes 404 [] none) "page" "secret" = some ("", none)) ∧
    (¬ (200 ≤ 500 ∧ 500 < 300) ∧
      fetchNotionContent (notionServes 500 [paragraphBlock ["Internal Server Error"]] none)
        "page" "secret" = some ("Internal Server Error", none)) := by
  decide

/-- C8, amended: `fetchNotionContent` fails exactly when `client.Do` itself reports an
error, returning the empty text and that error; a reply is decoded and flattened
whatever its status code, with a nil error. -/
theorem C8_only_do_errors_fail
    (failing answering : String → String → DoOutcome)
    (pageID token cause : String) (reply : NotionReply)
    (hfail : failing pageID token = DoOutcome.failed cause)
    (hreply : answering pageID token = DoOutcome.replied reply) :
    fetchNotionContent failing pageID token = some ("", some cause) ∧
    fetchNotionContent answering pageID token =
      some (stringsJoin (extractLines reply.Results) "\n", none) ∧
    fetchNotionContent answering pageID token =
      fetchNotionContent (notionServes 200 reply.Results reply.unmarshalErr) pageID token := by
  simp [fetchNotionContent, hfail, hreply, notionServes]

theorem C8_only_do_errors_fail_witness :
    fetchNotionContent (notionFails "dial tcp: connection refused") "page" "secret" =
      some ("", some "dial tcp: connection refused") ∧
    fetchNotionContent (notionServes 503 [paragraphBlock ["busy"]] none) "page" "secret" =
      some (stringsJoin (extractLines [paragraphBlock ["busy"]]) "\n", none) ∧
    fetchNotionContent (notionServes 503 [paragraphBlock ["busy"]] none) "page" "secret" =
      fetchNotionContent (notionServes 200 [paragraphBlock ["busy"]] none) "page" "secret" :=
  C8_only_do_errors_fail (notionFails "dial tcp: connection refused")
    (notionServes 503 [paragraphBlock ["busy"]] none) "page" "secret"
    "dial tcp: connection refused" ⟨503, [paragraphBlock ["busy"]], none⟩ rfl rfl

/-- C9, as stated, fails: a body that is not JSON (Unmarshal reports a syntax error and
leaves no block) gives the empty context with a nil error, and a body whose first
element of `results` is a number (Unmarshal reports a type error, leaves a nil map
there and decodes the rest) gives the text of the remaining block with a nil error. -/
theorem C9_counterexample :
    fetchNotionContent
      (notionServes 200 [] (some "invalid character \x27<\x27 looking for beginning of value"))
      "page" "secret" = some ("", none) ∧
    fetchNotionContent
      (notionServes 200 [[], paragraphBlock ["kept"]]
        (some "json: cannot unmarshal number into Go struct field .results of type map[string]interface \x7b\x7d"))
      "page" "secret" = some ("kept", none) := by
  decide

/-- C9, amended: an error reported by `json.Unmarshal` is not returned: the call still
succeeds with a nil error, and the text is the newline-join of the lines of whatever
blocks the decoder left in `result.Results`. -/
theorem C9_decode_error_is_dropped
    (Do : String → String → DoOutcome) (pageID token cause : String)
    (reply : NotionReply) (hdo : Do pageID token = DoOutcome.replied reply)
    (herr : reply.unmarshalErr = some cause) :
    fetchNotionContent Do pageID token =
      some (stringsJoin (extractLines reply.Results) "\n", none) ∧
    fetchNotionContent Do pageID token =
      fetchNotionContent (notionServes reply.StatusCode reply.Results none) pageID token := by
  have _ := herr
  simp [fetchNotionContent, hdo, notionServes]

theorem C9_decode_error_is_dropped_witness :
    fetchNotionContent (notionServes 200 [] (some "unexpected end of JSON input"))
      "page" "secret" = some (stringsJoin (extractLines []) "\n", none) ∧
    fetchNotionContent (notionServes 200 [] (some "unexpected end of JSON input"))
        "page" "secret" =
      fetchNotionContent (notionServes 200 [] none) "page" "secret" :=
  C9_decode_error_is_dropped (notionServes 200 [] (some "unexpected end of JSON input"))
    "page" "secret" "unexpected end of JSON input"
    ⟨200, [], some "unexpected end of JSON input"⟩ rfl rfl

/-- C10: after a successful fetch the run takes the no-content branch exactly when the
returned text is empty, which is exactly when the extracted lines are none or one
empty line; in every other case (two empty lines included) the run goes on to print
the question prompt and read the question. -/
theorem C10_abort_iff_context_empty (w : World) (reply : NotionReply)
    (henv : w.dotenvErr = none)
    (hdo : w.notionDo (w.getenv "NOTION_PAGE_ID") (w.getenv "NOTION_API_KEY") =
      DoOutcome.replied reply) :
    (main w = fetchTrace w ++ [Event.println "❌ No content fetched."] ↔
      fetchNotionContent w.notionDo (w.getenv "NOTION_PAGE_ID")
        (w.getenv "NOTION_API_KEY") = some ("", none)) ∧
    (fetchNotionContent w.notionDo (w.getenv "NOTION_PAGE_ID")
        (w.getenv "NOTION_API_KEY") = some ("", none) ↔
      extractLines reply.Results = [] ∨ extractLines reply.Results = [""]) ∧
    (¬ (extractLines reply.Results = [] ∨ extractLines reply.Results = [""]) →
      main w = fetchTrace w ++ askTrace w (stringsJoin (extractLines reply.Results) "\n") ∧
      Event.readStdin ∈ main w) := by
  have hmain := main_of_fetch_ok w reply henv hdo
  have hfetch : (fetchNotionContent w.notionDo (w.getenv "NOTION_PAGE_ID")
      (w.getenv "NOTION_API_KEY") = some ("", none)) ↔
      stringsJoin (extractLines reply.Results) "\n" = "" := by
    simp [fetchNotionContent, hdo]
  rw [hfetch]
  refine ⟨?_, stringsJoin_eq_empty _, ?_⟩
  · by_cases hctx : stringsJoin (extractLines reply.Results) "\n" = ""
    · have h0 : goLen (stringsJoin (extractLines reply.Results) "\n") = 0 :=
        (goLen_eq_zero _).mpr hctx
      rw [if_pos h0] at hmain
      exact ⟨fun _ => hctx, fun _ => hmain⟩
    · have h0 : ¬ goLen (stringsJoin (extractLines reply.Results) "\n") = 0 :=
        fun h => hctx ((goLen_eq_zero _).mp h)
      rw [if_neg h0] at hmain
      constructor
      · intro h
        rw [hmain] at h
        have hl := congrArg List.length h
        simp [askTrace_length] at hl
      · intro h
        exact absurd h hctx
  · intro hlines
    have hctx : ¬ stringsJoin (extractLines reply.Results) "\n" = "" :=
      fun h => hlines ((stringsJoin_eq_empty _).mp h)
    have h0 : ¬ goLen (stringsJoin (extractLines reply.Results) "\n") = 0 :=
      fun h => hctx ((goLen_eq_zero _).mp h)
    rw [if_neg h0] at hmain
    refine ⟨hmain, ?_⟩
    rw [hmain]
    exact List.mem_append_right _ (readStdin_mem_askTrace w _)

/-- Two empty spans give the text "\n", so the run reads the question; one empty span
gives the empty text, so the run stops. -/
theorem C10_abort_iff_context_empty_witness :
    extractLines [paragraphBlock ["", ""]] = ["", ""] ∧
    Event.readStdin ∈ main (sampleWorld [paragraphBlock ["", ""]]) ∧
    extractLines [paragraphBlock [""]] = [""] ∧
    main (sampleWorld [paragraphBlock [""]]) =
      fetchTrace (sampleWorld [paragraphBlock [""]]) ++
        [Event.println "❌ No content fetched."] :=
  ⟨by decide,
    ((C10_abort_iff_context_empty (sampleWorld [paragraphBlock ["", ""]])
      ⟨200, [paragraphBlock ["", ""]], none⟩ rfl rfl).2.2 (by decide)).2,
    by decide,
    (C10_abort_iff_context_empty (sampleWorld [paragraphBlock [""]])
      ⟨200, [paragraphBlock [""]], none⟩ rfl rfl).1.mpr (by decide)⟩

end NotionChat
